import Mathlib

/-!
Verification development for the `tingly-traj` repository: a shallow
embedding of the round-extraction and rendering CLI (two revisions:
`src/cli/index.ts` and the later revision with render commands), the
session-export route and client service, and the spec-level contracts of
the round extractor and summary generator, together with theorems that
settle the frozen specification claims.
-/

namespace TinglyTraj

/-! ## JavaScript string primitives

Models of the JavaScript string operations the code relies on:
`String.prototype.split` with a single-character separator,
`Array.prototype.join`, and `parseInt(s, 10)`.  Strings are handled via
their character lists so the split/join algebra stays elementary. -/

/-- Model of JavaScript `split` on a one-character separator, over
character lists.  `split` of an empty list yields one empty chunk, as in
JavaScript where `"".split(c)` is `[""]`. -/
def jsSplitChar (c : Char) : List Char → List (List Char)
  | [] => [[]]
  | x :: xs =>
    if x = c then [] :: jsSplitChar c xs
    else
      match jsSplitChar c xs with
      | [] => [[x]]
      | h :: t => (x :: h) :: t

/-- Model of JavaScript `s.split(c)` at the `String` level. -/
def jsSplit (c : Char) (s : String) : List String :=
  (jsSplitChar c s.data).map String.mk

/-- Model of JavaScript `parts.join(c)` (single-character separator). -/
def jsJoin (c : Char) (l : List String) : String :=
  String.mk (List.intercalate [c] (l.map String.data))

/-- Model of JavaScript `s.substring(0, k)`: the first `k` characters. -/
def jsSubstring0 (s : String) (k : Nat) : String :=
  String.mk (s.data.take k)

/-- Model of JavaScript `parseInt(s, 10)`: skip leading whitespace, read
an optional sign, then the longest prefix of decimal digits; `none`
models `NaN` (no digit found). -/
def jsParseInt (s : String) : Option Int :=
  let cs := s.data.dropWhile Char.isWhitespace
  let signAndRest : Int × List Char :=
    match cs with
    | '-' :: rest => (-1, rest)
    | '+' :: rest => (1, rest)
    | rest => (1, rest)
  let ds := signAndRest.2.takeWhile Char.isDigit
  if ds.isEmpty then none
  else some (signAndRest.1 * (ds.foldl (fun acc ch => acc * 10 + (ch.toNat - 48)) 0 : Nat))

/-! ## Data model (from `src/unnamed/part_002`, the CLI type declarations) -/

/-- One entry of a round, as declared in the CLI types: the parsed
identity fields plus the verbatim original line text (`rawContent`) kept
for byte-faithful reconstruction. -/
structure RoundEntry where
  type : String
  uuid : String
  parentUuid : Option String
  timestamp : String
  rawContent : String
  displayContent : Option String
  deriving Repr, DecidableEq

/-- One logical round, as declared in the CLI types. -/
structure Round where
  roundNumber : Nat
  startUuid : String
  startTimestamp : String
  endTimestamp : String
  entries : List RoundEntry
  summary : String
  deriving Repr, DecidableEq

/-! ## Round extractor (spec-modelled)

The module `round-extractor.ts` is imported by both CLI revisions but its
source is not part of the corpus; its operations are modelled from the
specification's contracts. -/

/-- Modelled from the spec: `readEntries` splits the file text on line
boundaries, skips lines that are empty after trimming, and each resulting
entry retains the original line text unmodified.  We model the sequence
of retained raw lines. -/
def readRawLines (text : String) : List String :=
  (jsSplit '\n' text).filter (fun l => !(l.data.all Char.isWhitespace))

/-- Modelled from the spec: `extractRound rounds n` returns the exact
concatenation of the original line text of every entry of the round whose
`roundNumber` is `n`, in file order, joined on line boundaries with no
re-encoding, or signals absence when no round carries that number. -/
def extractRound (rounds : List Round) (n : Int) : Option String :=
  match rounds.find? (fun r => (r.roundNumber : Int) == n) with
  | none => none
  | some r => some (jsJoin '\n' (r.entries.map RoundEntry.rawContent))

/-! ## CLI command surface

Two revisions of the CLI exist in the corpus: `src/cli/index.ts` (extract
commands only, 1-based round validation) and `src/unnamed/part_003` (adds
the render commands, 0-based round validation).  Console output and exits
are modelled by an explicit result type. -/

/-- Outcome of a CLI command: either the text printed to stdout, or an
error message together with the process exit code. -/
inductive CmdResult where
  | printed (out : String)
  | errored (msg : String) (exitCode : Nat)
  deriving Repr, DecidableEq

/-- The round-not-found message shared by both revisions. -/
def notFoundMsg (n : Int) (total : Nat) : String :=
  "Round " ++ toString n ++ " not found. Total rounds: " ++ toString total

/-- Round-number validation of `src/cli/index.ts`:
`isNaN(roundNum) || roundNum < 1` rejects. -/
def validateRoundArg_v1 (s : String) : Option Int :=
  match jsParseInt s with
  | none => none
  | some n => if n < 1 then none else some n

/-- Round-number validation of `src/unnamed/part_003`:
`isNaN(roundNum) || roundNum < 0` rejects. -/
def validateRoundArg_v2 (s : String) : Option Int :=
  match jsParseInt s with
  | none => none
  | some n => if n < 0 then none else some n

/-- The `extract` command of `src/cli/index.ts`: validate the argument
(1-based convention), then look the round up and print its reconstructed
text, or report not-found with exit code 1. -/
def extractCmd_v1 (rounds : List Round) (arg : String) : CmdResult :=
  match validateRoundArg_v1 arg with
  | none => .errored "Round number must be a positive integer" 1
  | some n =>
    match extractRound rounds n with
    | none => .errored (notFoundMsg n rounds.length) 1
    | some content => .printed content

/-- The `extract` command of `src/unnamed/part_003`: validate the
argument (0-based convention), then look the round up and print its
reconstructed text, or report not-found with exit code 1. -/
def extractCmd_v2 (rounds : List Round) (arg : String) : CmdResult :=
  match validateRoundArg_v2 arg with
  | none => .errored "Round number must be a non-negative integer" 1
  | some n =>
    match extractRound rounds n with
    | none => .errored (notFoundMsg n rounds.length) 1
    | some content => .printed content

/-- Theme selector of the render commands. -/
inductive Theme where
  | light
  | dark
  deriving Repr, DecidableEq

/-- Loop body of `parseOutputOptions` in `src/unnamed/part_003`: scans
the remaining arguments left to right.  `-o`/`--output` consumes the next
argument as the output directory, exiting with an error when none
follows; `--theme` consumes the next argument when present (exiting with
an error when it is neither `light` nor `dark`) and silently does nothing
when `--theme` is the final argument. -/
def parseOutputOptionsGo : List String → String → Theme → Except String (String × Theme)
  | [], dir, th => .ok (dir, th)
  | a :: rest, dir, th =>
    if a = "-o" ∨ a = "--output" then
      match rest with
      | [] => .error "--output requires a path"
      | v :: rest2 => parseOutputOptionsGo rest2 v th
    else if a = "--theme" then
      match rest with
      | [] => .ok (dir, th)
      | v :: rest2 =>
        if v = "light" then parseOutputOptionsGo rest2 dir .light
        else if v = "dark" then parseOutputOptionsGo rest2 dir .dark
        else .error "--theme must be \"light\" or \"dark\""
    else parseOutputOptionsGo rest dir th

/-- `parseOutputOptions` of `src/unnamed/part_003` with its defaults:
output directory `./output`, theme `light`. -/
def parseOutputOptions (argsRest : List String) : Except String (String × Theme) :=
  parseOutputOptionsGo argsRest "./output" Theme.light

/-! ## The extract-all batch loop (`src/unnamed/part_003` lines 183-197,
identical in `src/cli/index.ts` lines 170-184)

The per-round file write is the only effect; it is passed in as a
function from the round number to an `Except` result so that write
failures can be analysed.  The returned trace records which rounds'
writes were attempted, in order; a write error carries the trace up to
and including the failing round, mirroring the exception escaping the
`for` loop into the surrounding `try`/`catch`. -/

def extractAllGo (write : Nat → Except String Unit) (allRounds : List Round) :
    List Round → Except (String × List Nat) (Nat × List Nat)
  | [] => .ok (0, [])
  | r :: rs =>
    match extractRound allRounds (r.roundNumber : Int) with
    | none => extractAllGo write allRounds rs
    | some content =>
      if content.isEmpty then extractAllGo write allRounds rs
      else
        match write r.roundNumber with
        | .error e => .error (e, [r.roundNumber])
        | .ok _ =>
          match extractAllGo write allRounds rs with
          | .error (e, log) => .error (e, r.roundNumber :: log)
          | .ok (cnt, log) => .ok (cnt + 1, r.roundNumber :: log)

/-- The final summary line of `extract-all`. -/
def reportMsg (success total : Nat) : String :=
  "Successfully extracted " ++ toString success ++ "/" ++ toString total ++ " rounds"

/-- The `extract-all` command: an empty round list prints a warning and
exit 0; otherwise the write loop runs inside `try`/`catch`, so the first
write error aborts the command with exit code 1, and the success count
over the total is reported only when the loop completes. -/
def extractAllCmd (write : Nat → Except String Unit) (rounds : List Round) : CmdResult :=
  if rounds.isEmpty then .printed "No rounds found in file"
  else
    match extractAllGo write rounds rounds with
    | .error (e, _) => .errored e 1
    | .ok (cnt, _) => .printed (reportMsg cnt rounds.length)

/-! ## Session export (`src/server/routes/sessions.ts` and
`src/src/services/export.ts`) -/

/-- The observable pieces of the HTTP response of the export route. -/
structure ExportResponse where
  status : Nat
  contentType : Option String
  contentDisposition : Option String
  body : String
  deriving Repr, DecidableEq

/-- `GET /api/sessions/:id/export` from `src/server/routes/sessions.ts`:
requires a `project` query parameter, looks up the raw session file
content through the filesystem service, and on success streams it with
header `Content-Type: application/json` and an attachment disposition
naming `<id>.jsonl`. -/
def exportRoute (lookup : String → String → Option String) (id : String)
    (project : Option String) : ExportResponse :=
  match project with
  | none =>
    { status := 400, contentType := none, contentDisposition := none,
      body := "Project query parameter is required" }
  | some p =>
    match lookup id p with
    | none =>
      { status := 404, contentType := none, contentDisposition := none,
        body := "Session file not found" }
    | some content =>
      { status := 200, contentType := some "application/json",
        contentDisposition := some ("attachment; filename=\"" ++ id ++ ".jsonl\""),
        body := content }

/-- Client-side export service `src/src/services/export.ts`: the download
attribute set on the anchor element is `<sessionId>-<dateStamp>.jsonl`,
where the date stamp is the date part of `new Date().toISOString()`. -/
def exportDownloadName (sessionId dateStamp : String) : String :=
  sessionId ++ "-" ++ dateStamp ++ ".jsonl"

/-- Modelled from the spec: "a content type of JSON Lines" — the media
types conventionally used to declare JSON Lines / NDJSON content. -/
def isJsonLinesMediaType (s : String) : Bool :=
  s = "application/jsonl" || s = "application/x-ndjson" ||
    s = "application/jsonlines" || s = "application/json-lines" || s = "text/jsonl"

/-! ## Summary generator (spec-modelled)

`summarize` lives in the absent `round-extractor.ts`; it is modelled from
the specification's contract in §4.3. -/

/-- One typed content block of a message (`{type, text}` in the CLI
types). -/
structure ContentBlock where
  type : String
  text : String
  deriving Repr, DecidableEq

/-- `message.content`: either a plain string or an ordered sequence of
typed content blocks. -/
inductive MessageContent where
  | str (s : String)
  | blocks (bs : List ContentBlock)
  deriving Repr, DecidableEq

/-- The `message` field of a raw entry. -/
structure RawMessage where
  role : String
  content : MessageContent
  deriving Repr, DecidableEq

/-- A raw entry as declared in the CLI types (`ClaudeRawEntry`),
restricted to the fields segmentation and summarisation consult. -/
structure ClaudeRawEntry where
  type : String
  uuid : Option String
  parentUuid : Option String
  timestamp : Option String
  message : Option RawMessage
  isMeta : Bool
  deriving Repr, DecidableEq

/-- Text derived from a message content value: a plain string is used
as-is; a block sequence contributes the `text` of its blocks of type
`text`, in order. -/
def textOfContent : MessageContent → String
  | .str s => s
  | .blocks bs => String.join ((bs.filter (fun b => b.type = "text")).map ContentBlock.text)

/-- Collapse internal whitespace runs to single spaces and strip leading
and trailing whitespace: the non-whitespace words joined by single
spaces. -/
def normalizeWs (s : String) : String :=
  String.intercalate " "
    (((s.data.splitOnP Char.isWhitespace).map String.mk).filter (fun t => !t.isEmpty))

/-- Truncation bound of the summary label. -/
def SUMMARY_MAX : Nat := 80

/-- The normalized user text an entry contributes to the summary, when
its message has role `user` and yields non-empty text. -/
def userText (e : ClaudeRawEntry) : Option String :=
  match e.message with
  | none => none
  | some m =>
    if m.role = "user" then
      let t := normalizeWs (textOfContent m.content)
      if t.isEmpty then none else some t
    else none

/-- Modelled from the spec: `summarize` (from the absent
`round-extractor.ts`) locates the first entry whose `message.role` is
`user` with non-empty derived text, collapses and strips its whitespace,
truncates it to the bound appending an ellipsis marker, and returns the
fixed placeholder "No description" when no entry yields text. -/
def summarize (entries : List ClaudeRawEntry) : String :=
  match entries.findSome? userText with
  | none => "No description"
  | some t => if SUMMARY_MAX < t.length then jsSubstring0 t SUMMARY_MAX ++ "..." else t

/-- Session label shown by `SessionList` (`src/unnamed/part_000` line
63): JavaScript `session.display || 'No description'` — a missing or
empty (falsy) display string falls back to the placeholder. -/
def sessionDisplayLabel (display : Option String) : String :=
  match display with
  | none => "No description"
  | some s => if s.isEmpty then "No description" else s

/-- Session title shown by `SessionDetail`
(`src/src/components/SessionDetail.tsx` line 81): JavaScript
`session.display || 'Untitled Session'`. -/
def sessionTitleLabel (display : Option String) : String :=
  match display with
  | none => "Untitled Session"
  | some s => if s.isEmpty then "Untitled Session" else s

/-! ## render-all index document (`src/unnamed/part_003`,
`generateIndexHtml`, lines 330-442) -/

/-- Model of `path.basename(p)`: the path component after the last
slash. -/
def pathBasename (p : String) : String :=
  (jsSplit '/' p).getLastD p

/-- Model of `path.basename(p, ext)`: the basename with a trailing
extension stripped when present. -/
def pathBasenameExt (p ext : String) : String :=
  let b := pathBasename p
  if ext.isEmpty then b
  else if b.endsWith ext then b.take (b.length - ext.length) else b

/-- Modelled from the spec: `getHtmlFilename` (from the absent
`html-renderer.ts`) derives the per-round HTML output filename from the
source file's basename and the round number; `render-all` writes each
round to this filename and the index links to the same filename. -/
def getHtmlFilename (sourceFile : String) (n : Nat) : String :=
  pathBasenameExt sourceFile ".jsonl" ++ "-round-" ++ toString n ++ ".html"

/-- The filenames written by the `render-all` per-round loop
(`src/unnamed/part_003` line 268): one HTML file per round, named by
`getHtmlFilename`. -/
def renderAllFilenames (rounds : List Round) (sourceFile : String) : List String :=
  rounds.map (fun r => getHtmlFilename sourceFile r.roundNumber)

/-- The summary as displayed in a round link:
`r.summary.substring(0, 80)` followed by `...` exactly when the summary
is longer than 80 characters. -/
def truncSummary80 (s : String) : String :=
  jsSubstring0 s 80 ++ (if 80 < s.length then "..." else "")

/-- Template text of one round link, before the href. -/
def roundLinkPre1 : String :=
  "\n      <div class=\"round-link\">\n        <a href=\""

/-- Template text between the href and the round number. -/
def roundLinkPre2 : String :=
  "\">\n          <span class=\"round-num\">Round #"

/-- Template text between the round number and the summary. -/
def roundLinkPre3 : String :=
  "</span>\n          <span class=\"round-summary\">"

/-- Template text between the summary and the entry count. -/
def roundLinkPre4 : String :=
  "</span>\n          <span class=\"round-meta\">"

/-- Template text after the entry count. -/
def roundLinkPost : String :=
  " entries</span>\n        </a>\n      </div>\n    "

/-- One round's link entry in the index: an anchor to the round's HTML
filename showing `Round #<n>`, the summary truncated to 80 characters
with an ellipsis marker when longer, and the entry count. -/
def roundLinkHtml (sourceFile : String) (r : Round) : String :=
  roundLinkPre1 ++ (getHtmlFilename sourceFile r.roundNumber ++ (roundLinkPre2 ++
    (toString r.roundNumber ++ (roundLinkPre3 ++ (truncSummary80 r.summary ++
      (roundLinkPre4 ++ (toString r.entries.length ++ roundLinkPost)))))))

/-- The inline stylesheet of the index document. -/
def indexCss : String :=
  String.intercalate "\n" [
    "    :root \x7b",
    "      --bg-primary: #ffffff;",
    "      --bg-secondary: #f5f7fa;",
    "      --text-primary: #1a1a1a;",
    "      --text-secondary: #666666;",
    "      --border-color: #e1e8ed;",
    "      --accent-color: #2563eb;",
    "      --accent-hover: #1d4ed8;",
    "    \x7d",
    "    .dark-theme \x7b",
    "      --bg-primary: #1a1a1a;",
    "      --bg-secondary: #2d2d2d;",
    "      --text-primary: #e5e5e5;",
    "      --text-secondary: #a0a0a0;",
    "      --border-color: #404040;",
    "      --accent-color: #3b82f6;",
    "      --accent-hover: #2563eb;",
    "    \x7d",
    "    * \x7b box-sizing: border-box; \x7d",
    "    body \x7b",
    "      font-family: -apple-system, BlinkMacSystemFont, \x27Segoe UI\x27, Roboto, sans-serif;",
    "      line-height: 1.6;",
    "      color: var(--text-primary);",
    "      background: var(--bg-primary);",
    "      margin: 0;",
    "      padding: 20px;",
    "    \x7d",
    "    .container \x7b",
    "      max-width: 900px;",
    "      margin: 0 auto;",
    "    \x7d",
    "    .header \x7b",
    "      background: var(--bg-secondary);",
    "      padding: 30px;",
    "      border-radius: 12px;",
    "      margin-bottom: 30px;",
    "      text-align: center;",
    "    \x7d",
    "    .header h1 \x7b",
    "      margin: 0 0 10px 0;",
    "      font-size: 2em;",
    "    \x7d",
    "    .header .meta \x7b",
    "      color: var(--text-secondary);",
    "    \x7d",
    "    .round-link \x7b",
    "      margin-bottom: 12px;",
    "    \x7d",
    "    .round-link a \x7b",
    "      display: flex;",
    "      align-items: center;",
    "      gap: 15px;",
    "      padding: 16px 20px;",
    "      background: var(--bg-secondary);",
    "      border: 1px solid var(--border-color);",
    "      border-radius: 10px;",
    "      text-decoration: none;",
    "      color: var(--text-primary);",
    "      transition: all 0.2s ease;",
    "    \x7d",
    "    .round-link a:hover \x7b",
    "      border-color: var(--accent-color);",
    "      transform: translateX(4px);",
    "    \x7d",
    "    .round-num \x7b",
    "      font-weight: 700;",
    "      font-size: 1.1em;",
    "      color: var(--accent-color);",
    "    \x7d",
    "    .round-summary \x7b",
    "      flex: 1;",
    "    \x7d",
    "    .round-meta \x7b",
    "      color: var(--text-secondary);",
    "      font-size: 0.9em;",
    "    \x7d"]

/-- Document text up to the title's source-file interpolation. -/
def indexHtmlPart1 : String :=
  "<!DOCTYPE html>\n<html lang=\"en\">\n<head>\n  <meta charset=\"UTF-8\">\n" ++
    "  <meta name=\"viewport\" content=\"width=device-width, initial-scale=1.0\">\n" ++
    "  <title>Claude Code Session - "

/-- Document text from the title to the body class interpolation. -/
def indexHtmlPart2 : String :=
  "</title>\n  <style>\n" ++ indexCss ++ "\n  </style>\n</head>\n<body class=\""

/-- Document text from the body class to the header's source-file
interpolation. -/
def indexHtmlPart3 : String :=
  "\">\n  <div class=\"container\">\n    <div class=\"header\">\n" ++
    "      <h1>📂 Claude Code Session</h1>\n      <div class=\"meta\">"

/-- Document text between the two header metadata interpolations. -/
def indexHtmlPart4 : String :=
  "</div>\n      <div class=\"meta\">"

/-- Document text from the round count to the round links. -/
def indexHtmlPart5 : String :=
  " rounds</div>\n    </div>\n    <div class=\"rounds\">\n      "

/-- Closing document text after the round links. -/
def indexHtmlPart6 : String :=
  "\n    </div>\n  </div>\n</body>\n</html>"

/-- `generateIndexHtml` of `src/unnamed/part_003`: the index document of
`render-all`, whose round list is the per-round link entries joined on
newlines. -/
def generateIndexHtml (rounds : List Round) (sourceFile : String) (theme : Theme) : String :=
  let roundLinks := jsJoin '\n' (rounds.map (roundLinkHtml sourceFile))
  indexHtmlPart1 ++ (sourceFile ++ (indexHtmlPart2 ++
    ((if theme = Theme.dark then "dark-theme" else "") ++ (indexHtmlPart3 ++
      (sourceFile ++ (indexHtmlPart4 ++ (toString rounds.length ++ (indexHtmlPart5 ++
        (roundLinks ++ indexHtmlPart6)))))))))

/-! ## Concrete fixtures used by witnesses and counterexamples -/

/-- A two-line session file fixture. -/
def demoText : String :=
  "\x7b\"type\":\"user\",\"uuid\":\"a\"\x7d\n\x7b\"type\":\"assistant\",\"uuid\":\"b\"\x7d"

/-- First fixture entry: the user turn. -/
def demoEntryA : RoundEntry :=
  { type := "user", uuid := "a", parentUuid := none, timestamp := "2024-01-01T00:00:00Z",
    rawContent := "\x7b\"type\":\"user\",\"uuid\":\"a\"\x7d", displayContent := none }

/-- Second fixture entry: the assistant reply. -/
def demoEntryB : RoundEntry :=
  { type := "assistant", uuid := "b", parentUuid := some "a",
    timestamp := "2024-01-01T00:00:01Z",
    rawContent := "\x7b\"type\":\"assistant\",\"uuid\":\"b\"\x7d", displayContent := none }

/-- Third fixture entry, for a second round. -/
def demoEntryC : RoundEntry :=
  { type := "user", uuid := "c", parentUuid := none, timestamp := "2024-01-01T00:00:02Z",
    rawContent := "\x7b\"type\":\"user\",\"uuid\":\"c\"\x7d", displayContent := none }

/-- Fixture round number 0 with the first two entries. -/
def demoRound : Round :=
  { roundNumber := 0, startUuid := "a", startTimestamp := "2024-01-01T00:00:00Z",
    endTimestamp := "2024-01-01T00:00:01Z", entries := [demoEntryA, demoEntryB],
    summary := "Fix bug" }

/-- Fixture round number 1 with the third entry. -/
def demoRound1 : Round :=
  { roundNumber := 1, startUuid := "c", startTimestamp := "2024-01-01T00:00:02Z",
    endTimestamp := "2024-01-01T00:00:02Z", entries := [demoEntryC],
    summary := "Thanks" }

/-- Fixture list of two rounds. -/
def demoRounds2 : List Round := [demoRound, demoRound1]

/-- A write function that fails on round 0 and succeeds elsewhere. -/
def badWrite : Nat → Except String Unit :=
  fun k => if k = 0 then Except.error "disk full" else Except.ok ()

/-- A write function that always succeeds. -/
def goodWrite : Nat → Except String Unit := fun _ => Except.ok ()

/-- A session lookup fixture for the export route. -/
def demoLookup : String → String → Option String :=
  fun id p => if id = "s1" && p = "proj" then some demoText else none

/-- A fixture raw entry with a message that has no textual content. -/
def demoNoTextEntry : ClaudeRawEntry :=
  { type := "user", uuid := some "a", parentUuid := none,
    timestamp := some "2024-01-01T00:00:00Z",
    message := some { role := "user", content := MessageContent.blocks [] },
    isMeta := false }

/-- The rounds of `extract-all`/`render-all` batches whose extracted
content is non-null and non-empty, i.e. those whose write is attempted
by the loop. -/
def writableRounds (allRounds : List Round) (l : List Round) : List Round :=
  l.filter (fun r =>
    match extractRound allRounds (r.roundNumber : Int) with
    | none => false
    | some c => !c.isEmpty)

/-! ## Helper lemmas: split/join algebra -/

theorem jsSplitChar_ne_nil (c : Char) (l : List Char) : jsSplitChar c l ≠ [] := by
  cases l with
  | nil => simp [jsSplitChar]
  | cons x xs =>
    simp only [jsSplitChar]
    split
    · simp
    · split
      · simp
      · simp

/-- Splitting a chunk that does not contain the separator returns the
chunk alone. -/
theorem jsSplitChar_of_not_mem {c : Char} {l : List Char} (h : c ∉ l) :
    jsSplitChar c l = [l] := by
  induction l with
  | nil => rfl
  | cons x xs ih =>
    have hx : x ≠ c := fun hxc => h (hxc ▸ List.mem_cons_self x xs)
    have hxs : c ∉ xs := fun hm => h (List.mem_cons_of_mem x hm)
    simp only [jsSplitChar, if_neg hx, ih hxs]

/-- Splitting a clean chunk followed by the separator peels off exactly
that chunk. -/
theorem jsSplitChar_append_cons {c : Char} {l : List Char} (h : c ∉ l) (rest : List Char) :
    jsSplitChar c (l ++ c :: rest) = l :: jsSplitChar c rest := by
  induction l with
  | nil => simp [jsSplitChar]
  | cons x xs ih =>
    have hx : x ≠ c := fun hxc => h (hxc ▸ List.mem_cons_self x xs)
    have hxs : c ∉ xs := fun hm => h (List.mem_cons_of_mem x hm)
    simp only [List.cons_append, jsSplitChar, if_neg hx]
    rw [show xs.append (c :: rest) = xs ++ c :: rest from rfl, ih hxs]

/-- `jsSplitChar` is a left inverse of `List.intercalate [c]` on nonempty
lists of chunks free of the separator. -/
theorem jsSplitChar_intercalate {c : Char} :
    ∀ (ls : List (List Char)), ls ≠ [] → (∀ l ∈ ls, c ∉ l) →
      jsSplitChar c (List.intercalate [c] ls) = ls := by
  intro ls
  induction ls with
  | nil => intro h; exact absurd rfl h
  | cons l ls ih =>
    intro _ hclean
    cases ls with
    | nil =>
      simp only [List.intercalate, List.intersperse, List.flatten, List.append_nil]
      exact jsSplitChar_of_not_mem (hclean l (List.mem_cons_self l _))
    | cons l2 ls2 =>
      have hstep : List.intercalate [c] (l :: l2 :: ls2) =
          l ++ c :: List.intercalate [c] (l2 :: ls2) := by
        simp [List.intercalate, List.intersperse]
      rw [hstep, jsSplitChar_append_cons (hclean l (List.mem_cons_self l _))]
      rw [ih (by simp) (fun x hx => hclean x (List.mem_cons_of_mem l hx))]

/-- `jsSplit` undoes `jsJoin` on a nonempty list of newline-free lines. -/
theorem jsSplit_jsJoin {c : Char} (ls : List String) (hne : ls ≠ [])
    (hclean : ∀ l ∈ ls, c ∉ l.data) :
    jsSplit c (jsJoin c ls) = ls := by
  unfold jsSplit jsJoin
  rw [show (String.mk (List.intercalate [c] (ls.map String.data))).data
        = List.intercalate [c] (ls.map String.data) from rfl]
  rw [jsSplitChar_intercalate (ls.map String.data)
        (by simpa using hne)
        (by intro l hl
            rcases List.mem_map.mp hl with ⟨s, hs, rfl⟩
            exact hclean s hs)]
  rw [List.map_map]
  have : (String.mk ∘ String.data) = id := by
    funext s; cases s; rfl
  rw [this, List.map_id]

/-- Every chunk produced by `jsSplitChar` is free of the separator. -/
theorem jsSplitChar_chunks_clean (c : Char) :
    ∀ (l : List Char), ∀ chunk ∈ jsSplitChar c l, c ∉ chunk := by
  intro l
  induction l with
  | nil =>
    intro chunk hc
    simp only [jsSplitChar, List.mem_singleton] at hc
    simp [hc]
  | cons x xs ih =>
    intro chunk hc
    by_cases hx : x = c
    · simp only [jsSplitChar, if_pos hx] at hc
      rcases List.mem_cons.mp hc with rfl | hc'
      · simp
      · exact ih chunk hc'
    · simp only [jsSplitChar, if_neg hx] at hc
      rcases hrec : jsSplitChar c xs with _ | ⟨h0, t0⟩
      · exact absurd hrec (jsSplitChar_ne_nil c xs)
      · rw [hrec] at hc
        rcases List.mem_cons.mp hc with rfl | hc'
        · intro hmem
          rcases List.mem_cons.mp hmem with rfl | hmem'
          · exact hx rfl
          · exact ih h0 (hrec ▸ List.mem_cons_self h0 t0) hmem'
        · exact ih chunk (hrec ▸ List.mem_cons_of_mem h0 hc')

/-- Every line produced by the reader model is free of newlines. -/
theorem readRawLines_no_newline (text : String) :
    ∀ l ∈ readRawLines text, '\n' ∉ l.data := by
  intro l hl
  have hmem : l ∈ jsSplit '\n' text := List.mem_of_mem_filter hl
  unfold jsSplit at hmem
  rcases List.mem_map.mp hmem with ⟨chunk, hchunk, rfl⟩
  exact jsSplitChar_chunks_clean '\n' text.data chunk hchunk

/-! ## Helper lemmas: string append algebra -/

theorem strAppend_assoc (a b c : String) : a ++ b ++ c = a ++ (b ++ c) := by
  cases a; cases b; cases c
  exact congrArg String.mk (List.append_assoc _ _ _)

theorem strData_append (a b : String) : (a ++ b).data = a.data ++ b.data := by
  cases a; cases b; rfl

theorem strAppend_empty (s : String) : s ++ "" = s := by
  cases s
  exact congrArg String.mk (List.append_nil _)

theorem strMk_data (s : String) : String.mk s.data = s := by
  cases s; rfl

/-- An infix of the middle component is an infix of the whole
concatenation. -/
theorem append_mid_decomp (p q x t : String) (h : ∃ u v, t = u ++ (x ++ v)) :
    ∃ s1 s2, p ++ (t ++ q) = s1 ++ (x ++ s2) := by
  rcases h with ⟨u, v, rfl⟩
  refine ⟨p ++ u, v ++ q, ?_⟩
  simp [strAppend_assoc]

/-- Intercalation exposes any member as an infix, in right-associated
form. -/
theorem intercalate_mem_decomp (c : Char) :
    ∀ (l : List (List Char)) (x : List Char), x ∈ l →
      ∃ u v, List.intercalate [c] l = u ++ (x ++ v) := by
  intro l
  induction l with
  | nil => intro x hx; cases hx
  | cons y ys ih =>
    intro x hx
    rcases List.mem_cons.mp hx with rfl | hx'
    · cases ys with
      | nil => exact ⟨[], [], by simp [List.intercalate]⟩
      | cons z zs =>
        refine ⟨[], c :: List.intercalate [c] (z :: zs), ?_⟩
        simp [List.intercalate, List.intersperse]
    · have hys : ys ≠ [] := by rintro rfl; cases hx'
      rcases ih x hx' with ⟨u, v, huv⟩
      rcases ys with _ | ⟨z, zs⟩
      · exact absurd rfl hys
      · refine ⟨y ++ c :: u, v, ?_⟩
        have hstep : List.intercalate [c] (y :: z :: zs) =
            y ++ c :: List.intercalate [c] (z :: zs) := by
          simp [List.intercalate, List.intersperse]
        rw [hstep, huv]
        simp [List.append_assoc]

/-- `jsJoin` exposes any member as an infix. -/
theorem jsJoin_mem_decomp (c : Char) (l : List String) (x : String) (h : x ∈ l) :
    ∃ u v : String, jsJoin c l = u ++ (x ++ v) := by
  rcases intercalate_mem_decomp c (l.map String.data) x.data
      (List.mem_map_of_mem String.data h) with ⟨u, v, huv⟩
  refine ⟨String.mk u, String.mk v, ?_⟩
  unfold jsJoin
  rw [huv]
  cases x
  rfl

/-! ## Helper lemmas: findSome? -/

theorem findSome?_eq_some_src {α β : Type} (f : α → Option β) :
    ∀ (l : List α) (b : β), l.findSome? f = some b → ∃ a ∈ l, f a = some b := by
  intro l
  induction l with
  | nil => intro b h; simp [List.findSome?] at h
  | cons x xs ih =>
    intro b h
    rcases hx : f x with _ | y
    · rw [List.findSome?_cons, hx] at h
      rcases ih b h with ⟨a, ha, hfa⟩
      exact ⟨a, List.mem_cons_of_mem x ha, hfa⟩
    · rw [List.findSome?_cons, hx] at h
      cases h
      exact ⟨x, List.mem_cons_self x xs, hx⟩

theorem findSome?_eq_none_of_all {α β : Type} (f : α → Option β) :
    ∀ (l : List α), (∀ a ∈ l, f a = none) → l.findSome? f = none := by
  intro l
  induction l with
  | nil => intro _; rfl
  | cons x xs ih =>
    intro h
    rw [List.findSome?_cons, h x (List.mem_cons_self x xs)]
    exact ih (fun a ha => h a (List.mem_cons_of_mem x ha))

/-! ## Claim theorems -/

/-- C1: for every round produced by segmentation, `extractRound` returns
the exact concatenation of that round's entries' original line text, so
re-splitting the returned string on line boundaries gives back exactly
the original raw lines (no re-encoding, no trailing newline added or
dropped), and re-parsing each line under any parser yields values
identical to the parses of the original entries' raw text. -/
theorem extractRound_roundTrip (text : String) (rounds : List Round) (n : Int) (r : Round)
    (hfind : rounds.find? (fun q => (q.roundNumber : Int) == n) = some r)
    (hne : r.entries ≠ [])
    (hsrc : ∀ e ∈ r.entries, e.rawContent ∈ readRawLines text) :
    ∃ s, extractRound rounds n = some s ∧
      jsSplit '\n' s = r.entries.map RoundEntry.rawContent ∧
      ∀ (J : Type) (parse : String → J),
        (jsSplit '\n' s).map parse = r.entries.map (fun e => parse e.rawContent) := by
  refine ⟨jsJoin '\n' (r.entries.map RoundEntry.rawContent), ?_, ?_⟩
  · unfold extractRound
    rw [hfind]
  · have hsplit : jsSplit '\n' (jsJoin '\n' (r.entries.map RoundEntry.rawContent))
        = r.entries.map RoundEntry.rawContent := by
      apply jsSplit_jsJoin
      · simpa using hne
      · intro l hl
        rcases List.mem_map.mp hl with ⟨e, he, rfl⟩
        exact readRawLines_no_newline text e.rawContent (hsrc e he)
    refine ⟨hsplit, ?_⟩
    intro J parse
    rw [hsplit, List.map_map]
    rfl

/-- C1 witness: the round-trip property instantiated on a concrete
two-entry round extracted from a concrete two-line file. -/
theorem extractRound_roundTrip_witness :
    ∃ s, extractRound [demoRound] 0 = some s ∧
      jsSplit '\n' s = demoRound.entries.map RoundEntry.rawContent ∧
      ∀ (J : Type) (parse : String → J),
        (jsSplit '\n' s).map parse = demoRound.entries.map (fun e => parse e.rawContent) :=
  extractRound_roundTrip demoText [demoRound] 0 demoRound (by rfl) (by decide) (by decide)

/-- C2 counterexample: the integer argument `0` is rejected by the
`extract` command of `src/cli/index.ts` (1-based convention) but accepted
by the `extract` command of `src/unnamed/part_003` (0-based convention),
which proceeds to print round 0 — the two revisions do not apply the same
round-numbering convention. -/
theorem roundConvention_disagree_at_zero :
    extractCmd_v1 [demoRound] "0" =
      CmdResult.errored "Round number must be a positive integer" 1 ∧
    extractCmd_v2 [demoRound] "0" =
      CmdResult.printed (demoEntryA.rawContent ++ "\n" ++ demoEntryB.rawContent) := by
  constructor
  · rfl
  · rfl

/-- C2 amended: for every integer argument other than `0`, the two CLI
revisions agree — the validations accept or reject together, and on
acceptance both proceed to look up the same round, producing identical
command results; the revisions disagree exactly at `0`. -/
theorem roundConvention_agree_off_zero (n : Int) (hnz : n ≠ 0) :
    ∀ arg, jsParseInt arg = some n →
      validateRoundArg_v1 arg = validateRoundArg_v2 arg ∧
      (1 ≤ n → ∀ rounds, extractCmd_v1 rounds arg = extractCmd_v2 rounds arg) := by
  intro arg harg
  constructor
  · unfold validateRoundArg_v1 validateRoundArg_v2
    simp only [harg]
    by_cases hlt : n < 0
    · rw [if_pos (show n < 1 by omega), if_pos hlt]
    · rw [if_neg (show ¬n < 1 by omega), if_neg hlt]
  · intro h1 rounds
    unfold extractCmd_v1 extractCmd_v2 validateRoundArg_v1 validateRoundArg_v2
    simp only [harg]
    rw [if_neg (show ¬n < 1 by omega), if_neg (show ¬n < 0 by omega)]

/-- C2 witness: the agreement instantiated at the argument "3". -/
theorem roundConvention_agree_off_zero_witness :
    validateRoundArg_v1 "3" = validateRoundArg_v2 "3" ∧
    (1 ≤ (3 : Int) → ∀ rounds, extractCmd_v1 rounds "3" = extractCmd_v2 rounds "3") :=
  roundConvention_agree_off_zero 3 (by decide) "3" (by rfl)

/-- C4: for every round-number argument that passes validation (in
either CLI revision's convention) but matches no round, the extract
command reports the round as not found and terminates with exit status 1;
when the round exists it prints the reconstructed JSONL text. -/
theorem extractCmd_notFound_or_print (rounds : List Round) (arg : String) (n : Int)
    (hparse : jsParseInt arg = some n) :
    (0 ≤ n → (∀ r ∈ rounds, (r.roundNumber : Int) ≠ n) →
      extractCmd_v2 rounds arg = CmdResult.errored (notFoundMsg n rounds.length) 1) ∧
    (0 ≤ n → ∀ s, extractRound rounds n = some s →
      extractCmd_v2 rounds arg = CmdResult.printed s) ∧
    (1 ≤ n → (∀ r ∈ rounds, (r.roundNumber : Int) ≠ n) →
      extractCmd_v1 rounds arg = CmdResult.errored (notFoundMsg n rounds.length) 1) ∧
    (1 ≤ n → ∀ s, extractRound rounds n = some s →
      extractCmd_v1 rounds arg = CmdResult.printed s) := by
  have hnone : (∀ r ∈ rounds, (r.roundNumber : Int) ≠ n) → extractRound rounds n = none := by
    intro hno
    unfold extractRound
    rw [List.find?_eq_none.mpr (by
      intro q hq
      simpa using hno q hq)]
  refine ⟨?_, ?_, ?_, ?_⟩
  · intro h0 hno
    unfold extractCmd_v2 validateRoundArg_v2
    simp only [hparse]
    rw [if_neg (show ¬n < 0 by omega)]
    simp only [hnone hno]
  · intro h0 s hs
    unfold extractCmd_v2 validateRoundArg_v2
    simp only [hparse]
    rw [if_neg (show ¬n < 0 by omega)]
    simp only [hs]
  · intro h1 hno
    unfold extractCmd_v1 validateRoundArg_v1
    simp only [hparse]
    rw [if_neg (show ¬n < 1 by omega)]
    simp only [hnone hno]
  · intro h1 s hs
    unfold extractCmd_v1 validateRoundArg_v1
    simp only [hparse]
    rw [if_neg (show ¬n < 1 by omega)]
    simp only [hs]

/-- C4 witness: requesting round 5 of a one-round file reports not-found
with exit code 1 in both revisions. -/
theorem extractCmd_notFound_or_print_witness :
    extractCmd_v2 [demoRound] "5" = CmdResult.errored (notFoundMsg 5 1) 1 ∧
    extractCmd_v1 [demoRound] "5" = CmdResult.errored (notFoundMsg 5 1) 1 := by
  have h := extractCmd_notFound_or_print [demoRound] "5" 5 (by rfl)
  exact ⟨h.1 (by decide) (by decide), h.2.2.1 (by decide) (by decide)⟩

/-- C10 counterexample: the argument "0" parses to the non-negative
integer 0 (so the claim says it is accepted), yet the `extract` command
of `src/cli/index.ts` — one of the two cited revisions — rejects it: its
validation rejects everything below 1, not only NaN and negatives. -/
theorem validate_v1_rejects_zero :
    jsParseInt "0" = some 0 ∧
    validateRoundArg_v1 "0" = none ∧
    validateRoundArg_v2 "0" = some 0 ∧
    extractCmd_v1 [demoRound] "0" =
      CmdResult.errored "Round number must be a positive integer" 1 := by
  refine ⟨rfl, rfl, rfl, rfl⟩

/-- C10 amended: the round-number argument is parsed with base-10
`parseInt`, so a string with a parseable integer prefix (such as "2.9"
or "3abc") is interpreted as that integer; in `src/unnamed/part_003`
exactly the arguments parsing to NaN or a negative number are rejected,
while in `src/cli/index.ts` the arguments parsing to NaN or a number
below 1 (including 0) are rejected. -/
theorem parseInt_prefix_validation (s : String) (n : Int) :
    jsParseInt "2.9" = some 2 ∧
    jsParseInt "3abc" = some 3 ∧
    validateRoundArg_v2 "2.9" = some 2 ∧
    validateRoundArg_v2 "3abc" = some 3 ∧
    (jsParseInt s = some n → 0 ≤ n → validateRoundArg_v2 s = some n) ∧
    (validateRoundArg_v2 s = none ↔
      jsParseInt s = none ∨ ∃ m, jsParseInt s = some m ∧ m < 0) ∧
    (jsParseInt s = some n → 1 ≤ n → validateRoundArg_v1 s = some n) ∧
    (validateRoundArg_v1 s = none ↔
      jsParseInt s = none ∨ ∃ m, jsParseInt s = some m ∧ m < 1) := by
  refine ⟨rfl, rfl, rfl, rfl, ?_, ?_, ?_, ?_⟩
  · intro hp h0
    unfold validateRoundArg_v2
    simp only [hp]
    rw [if_neg (show ¬n < 0 by omega)]
  · unfold validateRoundArg_v2
    rcases hp : jsParseInt s with _ | m
    · simp
    · by_cases hm : m < 0
      · simp [if_pos hm, hm]
      · simp [if_neg hm, hm]
  · intro hp h1
    unfold validateRoundArg_v1
    simp only [hp]
    rw [if_neg (show ¬n < 1 by omega)]
  · unfold validateRoundArg_v1
    rcases hp : jsParseInt s with _ | m
    · simp
    · by_cases hm : m < 1
      · simp [if_pos hm, hm]
      · simp [if_neg hm, hm]

/-- C10 witness: the amended characterization instantiated at the
argument "7". -/
theorem parseInt_prefix_validation_witness :
    jsParseInt "2.9" = some 2 ∧ validateRoundArg_v2 "7" = some 7 ∧
    validateRoundArg_v1 "7" = some 7 := by
  have h := parseInt_prefix_validation "7" 7
  exact ⟨h.1, h.2.2.2.2.1 (by rfl) (by decide), h.2.2.2.2.2.2.1 (by rfl) (by decide)⟩

/-- When every write succeeds, the batch loop completes, counting and
logging exactly the rounds whose extracted content is non-empty. -/
theorem extractAllGo_all_ok (write : Nat → Except String Unit) (allRounds : List Round)
    (hok : ∀ k, write k = Except.ok ()) :
    ∀ l, extractAllGo write allRounds l =
      Except.ok ((writableRounds allRounds l).length,
        (writableRounds allRounds l).map Round.roundNumber) := by
  intro l
  induction l with
  | nil => rfl
  | cons r rs ih =>
    rcases hE : extractRound allRounds (r.roundNumber : Int) with _ | content
    · have hfilter : writableRounds allRounds (r :: rs) = writableRounds allRounds rs := by
        unfold writableRounds
        rw [List.filter_cons]
        simp [hE]
      unfold extractAllGo
      simp only [hE]
      rw [ih, hfilter]
    · by_cases hempty : content.isEmpty
      · have hfilter : writableRounds allRounds (r :: rs) = writableRounds allRounds rs := by
          unfold writableRounds
          rw [List.filter_cons]
          simp only [hE, hempty]
          rfl
        unfold extractAllGo
        simp only [hE, if_pos hempty]
        rw [ih, hfilter]
      · have hfilter : writableRounds allRounds (r :: rs) = r :: writableRounds allRounds rs := by
          unfold writableRounds
          rw [List.filter_cons]
          simp only [hE]
          rw [if_pos (by simp [hempty])]
        unfold extractAllGo
        simp only [hE, if_neg hempty, hok r.roundNumber, ih]
        rw [hfilter]
        rfl

/-- C3 counterexample: with two rounds and a write function failing on
round 0, the batch aborts at the first failure — round 1's write is never
attempted (the trace holds only round 0) and the command exits with code
1 instead of reporting a successfully-written count out of the total. -/
theorem extractAll_aborts_on_write_failure :
    extractAllCmd badWrite demoRounds2 = CmdResult.errored "disk full" 1 ∧
    extractAllGo badWrite demoRounds2 demoRounds2 = Except.error ("disk full", [0]) ∧
    demoRounds2.length = 2 := by
  refine ⟨rfl, rfl, rfl⟩

/-- C3 amended: the batch commands do not survive a write failure — the
first failing write aborts the loop with exit code 1 and the remaining
rounds are not processed; the count of files written out of the total is
reported only when every write succeeds, and then it counts the rounds
with non-empty extracted content. -/
theorem extractAll_partial_report (write : Nat → Except String Unit) (rounds : List Round) :
    ((∀ k, write k = Except.ok ()) → rounds ≠ [] →
      extractAllCmd write rounds =
        CmdResult.printed (reportMsg (writableRounds rounds rounds).length rounds.length)) ∧
    (∀ r rest e content, write r.roundNumber = Except.error e →
      extractRound rounds (r.roundNumber : Int) = some content → content.isEmpty = false →
      extractAllGo write rounds (r :: rest) = Except.error (e, [r.roundNumber])) ∧
    (∀ e log, extractAllGo write rounds rounds = Except.error (e, log) →
      extractAllCmd write rounds = CmdResult.errored e 1) := by
  refine ⟨?_, ?_, ?_⟩
  · intro hok hne
    unfold extractAllCmd
    rw [if_neg (by simpa using hne)]
    rw [extractAllGo_all_ok write rounds hok rounds]
  · intro r rest e content hw hE hempty
    unfold extractAllGo
    simp only [hE, hempty, if_neg (by simp [hempty] : ¬content.isEmpty = true), hw]
    simp
  · intro e log herr
    unfold extractAllCmd
    have hne : ¬rounds.isEmpty := by
      intro hemp
      rw [List.isEmpty_iff.mp hemp] at herr
      exact absurd herr (by intro h; cases h)
    rw [if_neg hne, herr]

/-- C3 amended witness: on the two-round fixture with an always-ok write
the command reports 2/2; and `badWrite` failing at round 0 yields the
abort trace. -/
theorem extractAll_partial_report_witness :
    extractAllCmd goodWrite demoRounds2 = CmdResult.printed (reportMsg 2 2) ∧
    extractAllGo badWrite demoRounds2 (demoRound :: [demoRound1]) =
      Except.error ("disk full", [0]) := by
  constructor
  · have h := (extractAll_partial_report goodWrite demoRounds2).1
      (fun k => rfl) (by decide)
    rw [h]
    rfl
  · exact (extractAll_partial_report badWrite demoRounds2).2.1 demoRound [demoRound1]
      "disk full" (demoEntryA.rawContent ++ "\n" ++ demoEntryB.rawContent)
      (by rfl) (by rfl) (by rfl)

/-- C5 counterexample: the export route declares
`Content-Type: application/json` — the media type of plain JSON, not a
JSON Lines media type — so the artifact's declared content type is not
JSON Lines. -/
theorem exportContentType_not_jsonLines :
    (exportRoute demoLookup "s1" (some "proj")).contentType = some "application/json" ∧
    isJsonLinesMediaType "application/json" = false := by
  refine ⟨rfl, rfl⟩

/-- C5 amended: the export path streams the raw session reconstruction
verbatim as an attachment whose declared content type is
`application/json` (plain JSON, not a JSON Lines media type); the
client-side download filename is the source session identifier plus a
date stamp (`<id>-<date>.jsonl`), while the server's own disposition
header names `<id>.jsonl` without a date stamp. -/
theorem exportRoute_streams_raw (lookup : String → String → Option String)
    (id p content : String) (h : lookup id p = some content) :
    exportRoute lookup id (some p) =
      { status := 200, contentType := some "application/json",
        contentDisposition := some ("attachment; filename=\"" ++ id ++ ".jsonl\""),
        body := content } ∧
    (∀ ct, (exportRoute lookup id (some p)).contentType = some ct →
      isJsonLinesMediaType ct = false) ∧
    ∀ dateStamp, exportDownloadName id dateStamp = id ++ "-" ++ dateStamp ++ ".jsonl" := by
  have hroute : exportRoute lookup id (some p) =
      { status := 200, contentType := some "application/json",
        contentDisposition := some ("attachment; filename=\"" ++ id ++ ".jsonl\""),
        body := content } := by
    unfold exportRoute
    simp only [h]
  refine ⟨hroute, ?_, fun _ => rfl⟩
  intro ct hct
  rw [hroute] at hct
  cases hct
  rfl

/-- C5 witness: the amended statement instantiated on the fixture
lookup. -/
theorem exportRoute_streams_raw_witness :
    exportRoute demoLookup "s1" (some "proj") =
      { status := 200, contentType := some "application/json",
        contentDisposition := some ("attachment; filename=\"" ++ "s1" ++ ".jsonl\""),
        body := demoText } ∧
    (∀ ct, (exportRoute demoLookup "s1" (some "proj")).contentType = some ct →
      isJsonLinesMediaType ct = false) ∧
    ∀ dateStamp, exportDownloadName "s1" dateStamp = "s1" ++ "-" ++ dateStamp ++ ".jsonl" :=
  exportRoute_streams_raw demoLookup "s1" "proj" demoText (by rfl)

/-- C7: `summarize` never yields a blank label — it returns a non-empty
string for every entry list, and the fixed placeholder "No description"
whenever no entry carries textual user content; likewise the downstream
session-list and session-detail labels never render as the empty
string. -/
theorem summarize_never_blank (entries : List ClaudeRawEntry) :
    ¬summarize entries = "" ∧
    ((∀ e ∈ entries, userText e = none) → summarize entries = "No description") ∧
    (∀ d, ¬sessionDisplayLabel d = "") ∧
    (∀ d, ¬sessionTitleLabel d = "") := by
  refine ⟨?_, ?_, ?_, ?_⟩
  · unfold summarize
    rcases hfs : entries.findSome? userText with _ | t
    · simp only [hfs]
      decide
    · simp only [hfs]
      have ht : ¬t.isEmpty = true := by
        rcases findSome?_eq_some_src userText entries t hfs with ⟨e, -, hue⟩
        unfold userText at hue
        rcases hm : e.message with _ | m
        · rw [hm] at hue
          exact absurd hue (by simp)
        · simp only [hm] at hue
          by_cases hrole : m.role = "user"
          · rw [if_pos hrole] at hue
            by_cases hemp : (normalizeWs (textOfContent m.content)).isEmpty
            · rw [if_pos hemp] at hue
              exact absurd hue (by simp)
            · rw [if_neg hemp] at hue
              cases hue
              exact hemp
          · rw [if_neg hrole] at hue
            exact absurd hue (by simp)
      by_cases hlen : SUMMARY_MAX < t.length
      · rw [if_pos hlen]
        intro hcontra
        have hd := congrArg String.data hcontra
        rw [strData_append] at hd
        rcases List.append_eq_nil.mp hd with ⟨-, h2⟩
        exact absurd h2 (by decide)
      · rw [if_neg hlen]
        intro hcontra
        rw [hcontra] at ht
        exact ht rfl
  · intro hall
    unfold summarize
    rw [findSome?_eq_none_of_all userText entries hall]
  · intro d
    rcases d with _ | s
    · decide
    · show ¬(if s.isEmpty = true then "No description" else s) = ""
      by_cases hs : s.isEmpty = true
      · rw [if_pos hs]
        decide
      · rw [if_neg hs]
        intro h
        rw [h] at hs
        exact hs rfl
  · intro d
    rcases d with _ | s
    · decide
    · show ¬(if s.isEmpty = true then "Untitled Session" else s) = ""
      by_cases hs : s.isEmpty = true
      · rw [if_pos hs]
        decide
      · rw [if_neg hs]
        intro h
        rw [h] at hs
        exact hs rfl

/-- C7 witness: a round whose only entry has a user message with no
textual blocks summarizes to the placeholder, which is not blank. -/
theorem summarize_never_blank_witness :
    ¬summarize [demoNoTextEntry] = "" ∧
    summarize [demoNoTextEntry] = "No description" ∧
    ¬sessionDisplayLabel (some "") = "" := by
  have h := summarize_never_blank [demoNoTextEntry]
  exact ⟨h.1, h.2.1 (by decide), h.2.2.1 (some "")⟩

/-- Without a `--theme` token the option loop leaves the theme
untouched: it either fails on a dangling `--output` or succeeds carrying
the incoming theme through. -/
theorem parseOutputOptionsGo_no_theme :
    ∀ (n : Nat) (l : List String), l.length ≤ n → ∀ (dir : String) (th : Theme),
      "--theme" ∉ l →
      parseOutputOptionsGo l dir th = Except.error "--output requires a path" ∨
      ∃ d, parseOutputOptionsGo l dir th = Except.ok (d, th) := by
  intro n
  induction n with
  | zero =>
    intro l hl dir th _
    rw [List.length_eq_zero.mp (Nat.le_zero.mp hl)]
    exact Or.inr ⟨dir, rfl⟩
  | succ n ih =>
    intro l hl dir th hmem
    rcases l with _ | ⟨a, rest⟩
    · exact Or.inr ⟨dir, rfl⟩
    · have ha : ¬a = "--theme" := fun h => hmem (h ▸ List.mem_cons_self a rest)
      have hrest : "--theme" ∉ rest := fun h => hmem (List.mem_cons_of_mem a h)
      unfold parseOutputOptionsGo
      by_cases ho : a = "-o" ∨ a = "--output"
      · rw [if_pos ho]
        rcases rest with _ | ⟨v, rest2⟩
        · exact Or.inl rfl
        · have hrest2 : "--theme" ∉ rest2 := fun h => hrest (List.mem_cons_of_mem v h)
          have hlen : rest2.length ≤ n := by
            simp only [List.length_cons] at hl
            omega
          exact ih rest2 hlen v th hrest2
      · rw [if_neg ho, if_neg ha]
        have hlen : rest.length ≤ n := by
          simp only [List.length_cons] at hl
          omega
        exact ih rest hlen dir th hrest

/-- C8: the theme option defaults to light (absent a `--theme` token the
parsed theme is light whenever parsing succeeds), and exactly the values
`light` and `dark` are accepted — any other value supplied to `--theme`
makes the command exit with an error. -/
theorem theme_option_validation (args post : List String) (v : String) :
    (("--theme" ∉ args) →
      parseOutputOptions args = Except.error "--output requires a path" ∨
      ∃ dir, parseOutputOptions args = Except.ok (dir, Theme.light)) ∧
    (v ≠ "light" → v ≠ "dark" →
      parseOutputOptions ("--theme" :: v :: post) =
        Except.error "--theme must be \"light\" or \"dark\"") ∧
    parseOutputOptions ["--theme", "light"] = Except.ok ("./output", Theme.light) ∧
    parseOutputOptions ["--theme", "dark"] = Except.ok ("./output", Theme.dark) := by
  refine ⟨?_, ?_, rfl, rfl⟩
  · intro hmem
    exact parseOutputOptionsGo_no_theme args.length args (le_refl _) "./output"
      Theme.light hmem
  · intro hv1 hv2
    unfold parseOutputOptions parseOutputOptionsGo
    rw [if_neg (by decide : ¬("--theme" = "-o" ∨ "--theme" = "--output")), if_pos rfl]
    show (if v = "light" then parseOutputOptionsGo post "./output" Theme.light
          else if v = "dark" then parseOutputOptionsGo post "./output" Theme.dark
          else Except.error "--theme must be \"light\" or \"dark\"") =
        Except.error "--theme must be \"light\" or \"dark\""
    rw [if_neg hv1, if_neg hv2]

/-- C8 witness: without `--theme` the parsed theme is light; the theme
value "solarized" is rejected with an error. -/
theorem theme_option_validation_witness :
    (parseOutputOptions ["-o", "out"] = Except.error "--output requires a path" ∨
      ∃ dir, parseOutputOptions ["-o", "out"] = Except.ok (dir, Theme.light)) ∧
    parseOutputOptions ["--theme", "solarized"] =
      Except.error "--theme must be \"light\" or \"dark\"" := by
  have h := theme_option_validation ["-o", "out"] [] "solarized"
  exact ⟨h.1 (by decide), h.2.1 (by decide) (by decide)⟩

/-- C9: option handling at the CLI boundary is asymmetric — `--theme` as
the final argument with no following value silently proceeds with the
default light theme, whereas `--output` (or `-o`) as the final argument
with no following value exits with an error. -/
theorem trailing_option_asymmetry (dir : String) :
    parseOutputOptions ["--theme"] = Except.ok ("./output", Theme.light) ∧
    parseOutputOptions ["-o", dir, "--theme"] = Except.ok (dir, Theme.light) ∧
    parseOutputOptions ["--output"] = Except.error "--output requires a path" ∧
    parseOutputOptions ["-o"] = Except.error "--output requires a path" ∧
    parseOutputOptions ["-o", dir, "--output"] = Except.error "--output requires a path" := by
  refine ⟨rfl, rfl, rfl, rfl, rfl⟩

/-- C6: for every round in the input sequence, the index document
produced by `render-all` contains that round's link entry: an anchor to
the round's HTML filename — the same filename the per-round rendering
loop writes — displaying `Round #<n>`, the summary truncated to 80
characters with an ellipsis marker exactly when longer, and the entry
count. -/
theorem generateIndexHtml_lists_round (rounds : List Round) (file : String) (theme : Theme)
    (r : Round) (h : r ∈ rounds) :
    (∃ s1 s2, generateIndexHtml rounds file theme = s1 ++ (roundLinkHtml file r ++ s2)) ∧
    roundLinkHtml file r =
      roundLinkPre1 ++ (getHtmlFilename file r.roundNumber ++ (roundLinkPre2 ++
        (toString r.roundNumber ++ (roundLinkPre3 ++ (truncSummary80 r.summary ++
          (roundLinkPre4 ++ (toString r.entries.length ++ roundLinkPost))))))) ∧
    getHtmlFilename file r.roundNumber ∈ renderAllFilenames rounds file ∧
    (80 < r.summary.length → truncSummary80 r.summary = jsSubstring0 r.summary 80 ++ "...") ∧
    (¬80 < r.summary.length → truncSummary80 r.summary = r.summary) := by
  refine ⟨?_, rfl, ?_, ?_, ?_⟩
  · have hdoc : generateIndexHtml rounds file theme =
        (indexHtmlPart1 ++ (file ++ (indexHtmlPart2 ++
          ((if theme = Theme.dark then "dark-theme" else "") ++ (indexHtmlPart3 ++
            (file ++ (indexHtmlPart4 ++ (toString rounds.length ++ indexHtmlPart5)))))))) ++
          (jsJoin '\n' (rounds.map (roundLinkHtml file)) ++ indexHtmlPart6) := by
      unfold generateIndexHtml
      simp [strAppend_assoc]
    rw [hdoc]
    exact append_mid_decomp _ indexHtmlPart6 _ _
      (jsJoin_mem_decomp '\n' (rounds.map (roundLinkHtml file)) (roundLinkHtml file r)
        (List.mem_map_of_mem (roundLinkHtml file) h))
  · exact List.mem_map_of_mem _ h
  · intro hlen
    unfold truncSummary80
    rw [if_pos hlen]
  · intro hlen
    unfold truncSummary80
    rw [if_neg hlen]
    have hle : r.summary.data.length ≤ 80 := by
      have hl : r.summary.length ≤ 80 := by omega
      exact hl
    unfold jsSubstring0
    rw [List.take_of_length_le hle, strMk_data, strAppend_empty]

/-- C6 witness: the index of the two-round fixture contains round 1's
link entry with its filename, number, summary, and entry count. -/
theorem generateIndexHtml_lists_round_witness :
    (∃ s1 s2, generateIndexHtml demoRounds2 "s.jsonl" Theme.light =
      s1 ++ (roundLinkHtml "s.jsonl" demoRound1 ++ s2)) ∧
    roundLinkHtml "s.jsonl" demoRound1 =
      roundLinkPre1 ++ (getHtmlFilename "s.jsonl" demoRound1.roundNumber ++ (roundLinkPre2 ++
        (toString demoRound1.roundNumber ++ (roundLinkPre3 ++
          (truncSummary80 demoRound1.summary ++ (roundLinkPre4 ++
            (toString demoRound1.entries.length ++ roundLinkPost))))))) ∧
    getHtmlFilename "s.jsonl" demoRound1.roundNumber ∈ renderAllFilenames demoRounds2 "s.jsonl" ∧
    (80 < demoRound1.summary.length →
      truncSummary80 demoRound1.summary = jsSubstring0 demoRound1.summary 80 ++ "...") ∧
    (¬80 < demoRound1.summary.length → truncSummary80 demoRound1.summary = demoRound1.summary) :=
  generateIndexHtml_lists_round demoRounds2 "s.jsonl" Theme.light demoRound1 (by decide)

end TinglyTraj
